import Mathlib

/-!
# The editor view of ozette (`src/editor/editor.cpp`)

A shallow embedding of `Editor::View`: the viewport arithmetic
(`line_is_visible`, `reveal_cursor`, `update_dimensions`), the paint loop
(`paint_into`, `paint_line`), the selection bookkeeping (`drop_selection`,
`adjust_selection`, `delete_selection`), the line-splitting keys
(`key_enter`, `key_return`) and the commit callbacks of the Go-to-line, Find
and Close commands.

`size_t` values are natural numbers with arithmetic reduced modulo `2 ^ 64`,
`long` values are integers wrapped into `[-2 ^ 63, 2 ^ 63)`, a `std::string`
typed by the user is a `List Char`.

`Document`, `Cursor`, `Selection` and `Update` live in `document.h`,
`cursor.h` and `update.h`, outside `editor.cpp`; their operations are modelled
from the specification and marked as such.
-/

namespace Editor

/-! ## Machine arithmetic -/

/-- Number of values of a `size_t`. -/
def SIZE_MOD : Nat := 2 ^ 64

/-- Addition of two `size_t` values. -/
def size_add (a b : Nat) : Nat := (a + b) % SIZE_MOD

/-- Subtraction of two `size_t` values: wraps around when `a < b`. -/
def size_sub (a b : Nat) : Nat := (a + (SIZE_MOD - b % SIZE_MOD)) % SIZE_MOD

/-- Largest `long`. -/
def LONG_MAX : Int := 2 ^ 63 - 1

/-- Smallest `long`. -/
def LONG_MIN : Int := -(2 ^ 63)

/-- Result of `long` arithmetic, wrapped into the range of a `long`. -/
def long_wrap (x : Int) : Int := (x + 2 ^ 63) % 2 ^ 64 - 2 ^ 63

/-! ## `std::stol` -/

/-- The exceptions `std::stol` throws. -/
inductive Exception where
  | invalid_argument
  | out_of_range
deriving DecidableEq, Repr

/-- C `isspace` in the "C" locale: space, `\t`, `\n`, `\v`, `\f`, `\r`. -/
def isspace (c : Char) : Bool := c.toNat = 32 || (9 ≤ c.toNat && c.toNat ≤ 13)

/-- C `isdigit`. -/
def isdigit (c : Char) : Bool := 48 ≤ c.toNat && c.toNat ≤ 57

/-- Value of a decimal digit character. -/
def digit_value (c : Char) : Nat := c.toNat - 48

/-- Sign prefix accepted by `strtol`: the flag is true for a minus sign. -/
def strip_sign : List Char → Bool × List Char
  | c :: rest =>
    if c = '-' then (true, rest)
    else if c = '+' then (false, rest)
    else (false, c :: rest)
  | [] => (false, [])

/-- The call `std::stol(str)` with its default base 10: skips leading white space, reads
an optional sign and the longest run of decimal digits; throws
`invalid_argument` when there is no digit and `out_of_range` when the value
does not fit a `long`. Characters after the digits are ignored. -/
def stol (str : List Char) : Except Exception Int :=
  let body := strip_sign (str.dropWhile isspace)
  let digits := body.2.takeWhile isdigit
  if digits.isEmpty then Except.error Exception.invalid_argument
  else
    let magnitude : Nat := digits.foldl (fun acc c => 10 * acc + digit_value c) 0
    let value : Int := if body.1 then -(magnitude : Int) else (magnitude : Int)
    if value < LONG_MIN ∨ LONG_MAX < value then Except.error Exception.out_of_range
    else Except.ok value

/-! ## Locations and selections -/

/-- A logical coordinate into the document (`location_t`). -/
structure location_t where
  line : Nat
  offset : Nat
deriving DecidableEq, Repr

/-- Modelled from the spec: the `Selection` class (not in src/), a normalized
pair of ordered endpoints; `begin == end` means no selection. -/
structure Selection where
  first : location_t
  last : location_t
deriving DecidableEq, Repr

namespace Selection

/-- Modelled from the spec: `Selection::begin()`, the ordered lower endpoint. -/
def begin (s : Selection) : location_t := s.first

/-- Modelled from the spec: `Selection::end()`, the ordered upper endpoint. -/
def end_ (s : Selection) : location_t := s.last

/-- Modelled from the spec: `Selection::empty()`, true when `begin == end`. -/
def empty (s : Selection) : Bool := decide (s.first = s.last)

/-- Modelled from the spec: `Selection::reset(loc)` collapses both endpoints
to `loc`. -/
def reset (_s : Selection) (loc : location_t) : Selection := ⟨loc, loc⟩

/-- Document order on locations: line, then offset. -/
def loc_le (a b : location_t) : Bool :=
  decide (a.line < b.line) || (decide (a.line = b.line) && decide (a.offset ≤ b.offset))

/-- Modelled from the spec: `Selection::extend(anchor, cursor)` recomputes the
endpoints as the document-order-sorted pair. -/
def extend (_s : Selection) (anchor cursor : location_t) : Selection :=
  if loc_le anchor cursor then ⟨anchor, cursor⟩ else ⟨cursor, anchor⟩

end Selection

/-! ## The dirty tracker -/

/-- Modelled from the spec: the `Update` class (not in src/), the dirty
tracker: clean, everything, every line from `start` on, or the lines
`lo .. hi`. -/
inductive Update where
  | Clean
  | All
  | Forward (start : Nat)
  | Range (lo hi : Nat)
deriving DecidableEq, Repr

namespace Update

/-- Modelled from the spec: `Update::all()` widens to everything. -/
def all (_u : Update) : Update := Update.All

/-- Modelled from the spec: `Update::reset()` returns to clean. -/
def reset (_u : Update) : Update := Update.Clean

/-- Modelled from the spec: `Update::forward(loc)` widens to at least
`Forward(loc.line)`; a wider state is never narrowed. -/
def forward (u : Update) (loc : location_t) : Update :=
  match u with
  | Clean => Forward loc.line
  | All => All
  | Forward start => Forward (min start loc.line)
  | Range lo _ => Forward (min lo loc.line)

/-- Modelled from the spec: `Update::range(sel)` widens to cover the line span
of the selection. -/
def range (u : Update) (sel : Selection) : Update :=
  match u with
  | Clean => Range sel.begin.line sel.end_.line
  | All => All
  | Forward start => Forward (min start sel.begin.line)
  | Range lo hi => Range (min lo sel.begin.line) (max hi sel.end_.line)

/-- Modelled from the spec: `Update::is_dirty(lineIndex)`. -/
def is_dirty (u : Update) (index : Nat) : Bool :=
  match u with
  | Clean => false
  | All => true
  | Forward start => decide (start ≤ index)
  | Range lo hi => decide (lo ≤ index) && decide (index ≤ hi)

/-- Modelled from the spec: `Update::has_dirty()`. -/
def has_dirty (u : Update) : Bool :=
  match u with
  | Clean => false
  | _ => true

end Update

/-! ## The document -/

/-- Modelled from the spec: the `Document` class (not in src/), an ordered,
never empty sequence of lines with a modified flag. -/
structure Document where
  lines : List (List Char)
  modified : Bool
deriving DecidableEq, Repr

/-- Modelled from the spec: what `Document::status()` summarises, the
modification indicator and the line count. -/
structure Status where
  modified : Bool
  count : Nat
deriving DecidableEq, Repr

namespace Document

/-- Modelled from the spec: `Document::maxline()`, index of the last line. -/
def maxline (d : Document) : Nat := d.lines.length - 1

/-- Content of the line at `index` (blank past the last line). -/
def content (d : Document) (index : Nat) : List Char := d.lines.getD index []

/-- Modelled from the spec: `Document::status()`. -/
def status (d : Document) : Status := ⟨d.modified, d.lines.length⟩

/-- Modelled from the spec: `Document::home(lineIndex)` clamps the index into
`[0, maxline]` and returns offset 0. The argument-less `home()` of the source
is `home 0`, the start of the document. -/
def home (d : Document) (index : Nat) : location_t := ⟨min index d.maxline, 0⟩

/-- Modelled from the spec: `Document::end()`, the sentinel one past the last
character of the last line. -/
def end_ (d : Document) : location_t := ⟨d.maxline, (d.content d.maxline).length⟩

/-- Modelled from the spec: `Document::next(loc)`, one character after `loc`,
crossing to the next line at the end of a line; the end of the document stays
where it is. -/
def next (d : Document) (loc : location_t) : location_t :=
  if loc.offset < (d.content loc.line).length then ⟨loc.line, loc.offset + 1⟩
  else if loc.line < d.maxline then ⟨loc.line + 1, 0⟩
  else loc

/-- First offset, counted from `offset`, at which `text` starts in the rest of
a line. -/
def find_in_line (text : List Char) : List Char → Nat → Option Nat
  | [], offset => if text.isEmpty then some offset else none
  | c :: rest, offset =>
    if text.isPrefixOf (c :: rest) then some offset
    else find_in_line text rest (offset + 1)

/-- First occurrence of `text` in the lines of a list, the first of which has
index `index`. -/
def find_in_lines (text : List Char) : List (List Char) → Nat → Option location_t
  | [], _ => none
  | l :: rest, index =>
    match find_in_line text l 0 with
    | some offset => some ⟨index, offset⟩
    | none => find_in_lines text rest (index + 1)

/-- Modelled from the spec: `Document::find(text, from)`, linear forward scan
from `start` to the end of the document for the first occurrence of `text`;
the sentinel `end()` when there is none. It does not wrap. -/
def find (d : Document) (text : List Char) (start : location_t) : location_t :=
  match find_in_line text ((d.content start.line).drop start.offset) start.offset with
  | some offset => ⟨start.line, offset⟩
  | none =>
    match find_in_lines text (d.lines.drop (start.line + 1)) (start.line + 1) with
    | some loc => loc
    | none => d.end_

/-- Modelled from the spec: `Document::split(loc)` inserts a line break at
`loc` and returns the start of the newly created line. Marks modified. -/
def split (d : Document) (loc : location_t) : Document × location_t :=
  let l := d.content loc.line
  (⟨d.lines.take loc.line ++ [l.take loc.offset, l.drop loc.offset]
      ++ d.lines.drop (loc.line + 1), true⟩,
   ⟨loc.line + 1, 0⟩)

/-- Modelled from the spec: `Document::erase(range)` deletes `[begin, end)`,
merging lines when the range spans line boundaries, and returns `begin`; a
no-op on an empty range. -/
def erase (d : Document) (sel : Selection) : Document × location_t :=
  if sel.empty then (d, sel.begin)
  else
    let head := (d.content sel.begin.line).take sel.begin.offset
    let tail := (d.content sel.end_.line).drop sel.end_.offset
    (⟨d.lines.take sel.begin.line ++ [head ++ tail]
        ++ d.lines.drop (sel.end_.line + 1), true⟩,
     sel.begin)

end Document

/-! ## The cursor -/

/-- Modelled from the spec: the `Cursor` class (not in src/), the current
location and the remembered preferred display column. The view constructs it
as `_cursor(_doc, _update)`: it works on the view's document and on the
view's dirty tracker, which `move_to` therefore takes and returns. -/
structure Cursor where
  loc : location_t
  column : Option Nat
deriving DecidableEq, Repr

namespace Cursor

/-- Modelled from the spec: `Cursor::location()`. -/
def location (c : Cursor) : location_t := c.loc

/-- Modelled from the spec: `Cursor::move_to(loc)` sets the location directly
and clears the remembered column. Every mutation marks the dirty tracker: on
the tracker the cursor was constructed with, the line it leaves and the line
it reaches are marked, each as the line span of a collapsed selection. -/
def move_to (c : Cursor) (u : Update) (loc : location_t) : Cursor × Update :=
  (⟨loc, none⟩, (u.range ⟨c.loc, c.loc⟩).range ⟨loc, loc⟩)

end Cursor

/-! ## The user-interface context -/

/-- The dialogs `Editor::View` asks the frame to show. The commit callbacks
they carry are the functions `ctl_toline_commit` and `ctl_find_commit`
below. -/
inductive Dialog where
  | Confirmation (prompt : String)
  | GoLine (prompt : String)
  | Find (prompt : String)
deriving DecidableEq, Repr

/-- What the view asks of its `UI::Frame &ctx`, in order: the messages passed to
`show_result`, the number of `repaint` requests, the last status set, the
dialogs shown and the paths passed to `app().close_file`. -/
structure Frame where
  results : List String
  repaints : Nat
  status : Option Status
  dialogs : List Dialog
  closed : List String
deriving DecidableEq, Repr

namespace Frame

/-- The call `ctx.show_result(message)`. -/
def show_result (ctx : Frame) (message : String) : Frame :=
  { ctx with results := ctx.results ++ [message] }

/-- The call `ctx.repaint()`. -/
def repaint (ctx : Frame) : Frame := { ctx with repaints := ctx.repaints + 1 }

/-- The call `ctx.set_status(status)`. -/
def set_status (ctx : Frame) (status : Status) : Frame :=
  { ctx with status := some status }

/-- The call `ctx.show_dialog(dialog)`. -/
def show_dialog (ctx : Frame) (dialog : Dialog) : Frame :=
  { ctx with dialogs := ctx.dialogs ++ [dialog] }

/-- The call `ctx.app().close_file(path)`. -/
def close_file (ctx : Frame) (path : String) : Frame :=
  { ctx with closed := ctx.closed ++ [path] }

end Frame

/-- A curses window as the view uses it: its identity and what `getmaxyx`
reports. -/
structure WINDOW where
  id : Nat
  height : Nat
  width : Nat
deriving DecidableEq, Repr

/-! ## The view -/

/-- The fields of `Editor::View`. `_last_dest` is `none` for `nullptr`. -/
structure View where
  _targetpath : String
  _doc : Document
  _update : Update
  _cursor : Cursor
  _anchor : location_t
  _selection : Selection
  _find_text : List Char
  _last_active : Bool
  _last_dest : Option Nat
  _width : Nat
  _height : Nat
  _halfheight : Nat
  _maxscroll : Nat
  _scrollpos : Nat
deriving DecidableEq, Repr

/-- What a commit callback leaves behind: the exception that escaped it, if
any, and the view and frame as they are at that point. -/
structure Outcome where
  thrown : Option Exception
  view : View
  ctx : Frame
deriving DecidableEq, Repr

namespace View

/-- Source function `Editor::View::line_is_visible`: the subtraction is
evaluated only when `index >= _scrollpos`. -/
def line_is_visible (v : View) (index : Nat) : Bool :=
  decide (index ≥ v._scrollpos) && decide (size_sub index v._scrollpos < v._height)

/-- Source function `Editor::View::reveal_cursor`. -/
def reveal_cursor (v : View) : View :=
  let line := v._cursor.location.line
  if v.line_is_visible line then v
  else
    let centered := if line > v._halfheight then size_sub line v._halfheight else 0
    { v with _scrollpos := min centered v._maxscroll, _update := v._update.all }

/-- Source function `Editor::View::update_dimensions`, `view` giving what
`getmaxyx` reports. -/
def update_dimensions (v : View) (view : WINDOW) : View :=
  let v1 :=
    if view.height ≠ v._height then
      { v with _height := view.height, _halfheight := view.height / 2,
               _update := v._update.all }
    else v
  let v2 :=
    if view.width ≠ v1._width then
      { v1 with _width := view.width, _update := v1._update.all }
    else v1
  let newmax := size_sub (max v2._doc.maxline v2._height) v2._halfheight
  if newmax ≠ v2._maxscroll then
    { v2 with _maxscroll := newmax, _scrollpos := min v2._scrollpos newmax,
              _update := v2._update.all }
  else v2

/-- Source function `Editor::View::paint_line`, as far as the document is
concerned: the index it passes to `_doc.line`, or `none` when it returns
before the call because the line is not dirty. The drawing itself is not
modelled. -/
def paint_line (v : View) (row : Nat) (_active : Bool) : Option Nat :=
  let index := size_add row v._scrollpos
  if !v._update.is_dirty index then none else some index

/-- Source function `Editor::View::paint_into`: the view it leaves and the
indices passed to `_doc.line`, in order. Placing the terminal cursor is
drawing and is not modelled. -/
def paint_into (v : View) (dest : WINDOW) (active : Bool) : View × List Nat :=
  let v1 := v.update_dimensions dest
  let v2 :=
    if active ≠ v1._last_active ∨ some dest.id ≠ v1._last_dest then
      { v1 with _update := v1._update.all, _last_active := active,
                _last_dest := some dest.id }
    else v1
  let reads := (List.range v2._height).filterMap (fun i => v2.paint_line i active)
  ({ v2 with _update := v2._update.reset }, reads)

/-- The call `_cursor.move_to(loc)` in the methods of `Editor::View`: the
cursor shares the view's `_update`. -/
def cursor_move_to (v : View) (loc : location_t) : View :=
  let moved := v._cursor.move_to v._update loc
  { v with _cursor := moved.1, _update := moved.2 }

/-- Source function `Editor::View::postprocess`. -/
def postprocess (v : View) (ctx : Frame) : View × Frame :=
  let v1 := v.reveal_cursor
  if v1._update.has_dirty then (v1, (ctx.repaint).set_status v1._doc.status)
  else (v1, ctx)

/-- Source function `Editor::View::drop_selection`. -/
def drop_selection (v : View) : View :=
  let v1 := { v with _update := v._update.range v._selection }
  let v2 := { v1 with _anchor := v1._cursor.location }
  { v2 with _selection := v2._selection.reset v2._anchor }

/-- Source function `Editor::View::adjust_selection`. -/
def adjust_selection (v : View) (extend : Bool) : View :=
  if extend then
    { v with _selection := v._selection.extend v._anchor v._cursor.location }
  else v.drop_selection

/-- Source function `Editor::View::delete_selection`. -/
def delete_selection (v : View) : View :=
  if v._selection.empty then v
  else
    let v1 := { v with _update := v._update.forward v._selection.begin }
    let erased := v1._doc.erase v1._selection
    let v2 := ({ v1 with _doc := erased.1 }).cursor_move_to erased.2
    v2.drop_selection

/-- Source function `Editor::View::key_enter`: splits the line, the cursor stays. -/
def key_enter (v : View) : View :=
  let v1 := v.delete_selection
  let v2 := { v1 with _doc := (v1._doc.split v1._cursor.location).1 }
  { v2 with _update := v2._update.forward v2._cursor.location }

/-- Source function `Editor::View::key_return`: splits the line and moves the
cursor to the new line. -/
def key_return (v : View) : View :=
  let v1 := v.delete_selection
  let parts := v1._doc.split v1._cursor.location
  let v2 := ({ v1 with _doc := parts.1 }).cursor_move_to parts.2
  { v2 with _update := v2._update.forward v2._cursor.location }

/-- Source function `Editor::View::ctl_close`: there is no `return` after
`close_file`; the two actions of the confirmation dialog are not modelled. -/
def ctl_close (v : View) (ctx : Frame) : Frame :=
  let ctx1 := if !v._doc.modified then ctx.close_file v._targetpath else ctx
  ctx1.show_dialog
    (Dialog.Confirmation "You have modified this file. Save changes before closing?")

/-- The commit callback of `Editor::View::ctl_toline`. -/
def ctl_toline_commit (v : View) (ctx : Frame) (value : List Char) : Outcome :=
  if value.isEmpty then ⟨none, v, ctx⟩
  else
    match stol value with
    | Except.error e => ⟨some e, v, ctx⟩
    | Except.ok parsed =>
      let valnum := long_wrap (parsed - 1)
      let index : Nat := if valnum ≥ 0 then valnum.toNat else 0
      let v1 := v.cursor_move_to (v._doc.home index)
      let v2 := v1.drop_selection
      let done := v2.postprocess ctx
      ⟨none, done.1, done.2⟩

/-- Source function `Editor::View::ctl_toline`: shows the dialog that carries
`ctl_toline_commit`. -/
def ctl_toline (v : View) (ctx : Frame) : Frame :=
  ctx.show_dialog
    (Dialog.GoLine ("Go to line (" ++ toString (v._cursor.location.line + 1) ++ ")"))

/-- The commit callback of `Editor::View::ctl_find`. -/
def ctl_find_commit (v : View) (ctx : Frame) (value : List Char) : View × Frame :=
  let v1 := if !value.isEmpty then { v with _find_text := value } else v
  let loc := v1._doc.next v1._cursor.location
  let hit := v1._doc.find v1._find_text loc
  let found : location_t × Frame :=
    if hit = v1._doc.end_ then
      let again := v1._doc.find v1._find_text (v1._doc.home 0)
      if again = v1._doc.end_ then
        (v1._cursor.location, ctx.show_result "Not found")
      else if again = v1._cursor.location then
        (again, ctx.show_result "This is the only occurrence")
      else
        (again, ctx.show_result "Search wrapped")
    else (hit, ctx)
  let v2 := v1.cursor_move_to found.1
  (v2.reveal_cursor, found.2.repaint)

/-- Source function `Editor::View::ctl_find`: shows the dialog that carries
`ctl_find_commit`. -/
def ctl_find (v : View) (ctx : Frame) : Frame :=
  ctx.show_dialog
    (Dialog.Find (if v._find_text.isEmpty then "Find"
                  else "Find" ++ " (" ++ String.mk v._find_text ++ ")"))

end View

/-! ## Sample states -/

/-- A frame nothing has been asked of yet. -/
def frame0 : Frame := ⟨[], 0, none, [], []⟩

/-- A view of `lines` with the cursor at `loc`, nothing selected, nothing
dirty, in a viewport of `height` rows scrolled to `scrollpos`, its dimensions
as `update_dimensions` leaves them. -/
def sample_view (lines : List (List Char)) (loc : location_t) (height scrollpos : Nat) :
    View :=
  { _targetpath := "notes.txt"
    _doc := ⟨lines, false⟩
    _update := Update.Clean
    _cursor := ⟨loc, none⟩
    _anchor := loc
    _selection := ⟨loc, loc⟩
    _find_text := []
    _last_active := true
    _last_dest := some 1
    _width := 80
    _height := height
    _halfheight := height / 2
    _maxscroll := size_sub (max (lines.length - 1) height) (height / 2)
    _scrollpos := scrollpos }

/-! ## Decimal numerals -/

/-- Value denoted by a run of decimal digits, most significant digit first. -/
def decimal_value (ds : List Char) : Nat := Nat.ofDigits 10 (ds.reverse.map digit_value)

/-- A decimal integer as the user types it: the digits `ds`, after a minus
sign when `neg` is set. -/
def numeral (neg : Bool) (ds : List Char) : List Char := if neg then '-' :: ds else ds

/-- The integer a numeral denotes. -/
def numeral_value (neg : Bool) (ds : List Char) : Int :=
  if neg then -(decimal_value ds : Int) else (decimal_value ds : Int)

/-- An input begins with a number when, after optional leading white space and
an optional sign, a decimal digit follows. -/
def begins_with_number (input : List Char) : Bool :=
  match input.dropWhile isspace with
  | [] => false
  | [c] => isdigit c
  | c :: d :: _ => isdigit c || ((c = '-' || c = '+') && isdigit d)

/-- The view `View()` constructs for a new blank buffer, before its first
paint: one empty line, all dimensions zero, no window seen yet. -/
def blank_view : View :=
  { _targetpath := ""
    _doc := ⟨[[]], false⟩
    _update := Update.Clean
    _cursor := ⟨⟨0, 0⟩, none⟩
    _anchor := ⟨0, 0⟩
    _selection := ⟨⟨0, 0⟩, ⟨0, 0⟩⟩
    _find_text := []
    _last_active := false
    _last_dest := none
    _width := 0
    _height := 0
    _halfheight := 0
    _maxscroll := 0
    _scrollpos := 0 }

/-- The subtractions `reveal_cursor` evaluates on `size_t` operands, as pairs
(minuend, subtrahend): `index - _scrollpos` in `line_is_visible` when its
first test passes, `line - _halfheight` when the cursor is off screen and
below the first half page. -/
def View.reveal_cursor_subtractions (v : View) : List (Nat × Nat) :=
  let line := v._cursor.location.line
  (if line ≥ v._scrollpos then [(line, v._scrollpos)] else []) ++
  (if v.line_is_visible line then []
   else if line > v._halfheight then [(line, v._halfheight)] else [])

/-! ## Auxiliary facts -/

theorem reveal_cursor_cursor (v : View) : v.reveal_cursor._cursor = v._cursor := by
  simp only [View.reveal_cursor]
  split <;> rfl

theorem cursor_move_to_location (v : View) (loc : location_t) :
    (v.cursor_move_to loc)._cursor.location = loc := rfl

theorem isdigit_not_isspace {c : Char} (h : isdigit c = true) : isspace c = false := by
  simp only [isdigit, Bool.and_eq_true, decide_eq_true_eq] at h
  simp only [isspace, Bool.or_eq_false_iff, Bool.and_eq_false_iff, decide_eq_false_iff_not]
  omega

theorem isdigit_ne_minus {c : Char} (h : isdigit c = true) : c ≠ '-' := by
  intro hc
  subst hc
  revert h
  decide

theorem isdigit_ne_plus {c : Char} (h : isdigit c = true) : c ≠ '+' := by
  intro hc
  subst hc
  revert h
  decide

theorem foldl_digits (ds : List Char) (a : Nat) :
    ds.foldl (fun acc c => 10 * acc + digit_value c) a
      = a * 10 ^ ds.length + decimal_value ds := by
  induction ds generalizing a with
  | nil => simp [decimal_value]
  | cons c cs ih =>
    simp only [List.foldl_cons, ih, decimal_value, List.reverse_cons, List.map_append,
      List.map_cons, List.map_nil, Nat.ofDigits_append, Nat.ofDigits_singleton,
      List.length_map, List.length_reverse, List.length_cons]
    ring

theorem stol_numeral_eq (neg : Bool) (ds : List Char) (hne : ds ≠ [])
    (hd : ∀ c ∈ ds, isdigit c = true) :
    stol (numeral neg ds) =
      if numeral_value neg ds < LONG_MIN ∨ LONG_MAX < numeral_value neg ds then
        Except.error Exception.out_of_range
      else Except.ok (numeral_value neg ds) := by
  obtain ⟨c, cs, rfl⟩ := List.exists_cons_of_ne_nil hne
  have hc : isdigit c = true := hd c (List.mem_cons_self c cs)
  have hws : (numeral neg (c :: cs)).dropWhile isspace = numeral neg (c :: cs) := by
    cases neg
    · simp [numeral, List.dropWhile_cons, isdigit_not_isspace hc]
    · simp only [numeral, if_true]
      rw [List.dropWhile_cons]
      have : isspace '-' = false := by decide
      simp [this]
  have hsign : strip_sign (numeral neg (c :: cs)) = (neg, c :: cs) := by
    cases neg
    · simp [numeral, strip_sign, isdigit_ne_minus hc, isdigit_ne_plus hc]
    · simp [numeral, strip_sign]
  have htake : (c :: cs).takeWhile isdigit = c :: cs :=
    List.takeWhile_eq_self_iff.mpr hd
  unfold stol
  simp only [hws, hsign, htake, List.isEmpty_cons, Bool.false_eq_true, if_false, foldl_digits,
    Nat.zero_mul, Nat.zero_add]
  rfl

theorem stol_numeral (neg : Bool) (ds : List Char) (hne : ds ≠ [])
    (hd : ∀ c ∈ ds, isdigit c = true)
    (hlo : LONG_MIN ≤ numeral_value neg ds) (hhi : numeral_value neg ds ≤ LONG_MAX) :
    stol (numeral neg ds) = Except.ok (numeral_value neg ds) := by
  rw [stol_numeral_eq neg ds hne hd, if_neg (by omega)]

theorem stol_numeral_out_of_range (neg : Bool) (ds : List Char) (hne : ds ≠ [])
    (hd : ∀ c ∈ ds, isdigit c = true)
    (hout : numeral_value neg ds < LONG_MIN ∨ LONG_MAX < numeral_value neg ds) :
    stol (numeral neg ds) = Except.error Exception.out_of_range := by
  rw [stol_numeral_eq neg ds hne hd, if_pos hout]

theorem stol_no_number (input : List Char) (h : begins_with_number input = false) :
    stol input = Except.error Exception.invalid_argument := by
  unfold begins_with_number at h
  unfold stol
  generalize input.dropWhile isspace = body at h ⊢
  match body, h with
  | [], _ => simp [strip_sign]
  | [c], h =>
    simp only at h
    by_cases h1 : c = '-'
    · simp [strip_sign, h1]
    · by_cases h2 : c = '+'
      · simp [strip_sign, h2]
      · simp [strip_sign, h1, h2, List.takeWhile_cons, h]
  | c :: d :: rest, h =>
    simp only [Bool.or_eq_false_iff, Bool.and_eq_false_iff] at h
    by_cases h1 : c = '-'
    · have hd : isdigit d = false := by
        rcases h.2 with h3 | h3
        · simp [h1] at h3
        · exact h3
      simp [strip_sign, h1, List.takeWhile_cons, hd]
    · by_cases h2 : c = '+'
      · have hd : isdigit d = false := by
          rcases h.2 with h3 | h3
          · simp [h2] at h3
          · exact h3
        simp [strip_sign, h2, List.takeWhile_cons, hd]
      · simp [strip_sign, h1, h2, List.takeWhile_cons, h.1]

/-! ## Find -/

/-- C1: for every view, frame and non-empty search text `t`, with `c` the cursor
location, the Find commit adds to the messages shown: nothing when
`find(t, next(c))` is a hit; otherwise, after the retry `find(t, home())`,
"Not found" when the retry returns the end sentinel too, "This is the only
occurrence" when the retry returns `c`, and "Search wrapped" when it returns
any other location. -/
theorem ctl_find_commit_classifies (v : View) (ctx : Frame) (t : List Char) (ht : t ≠ []) :
    (v.ctl_find_commit ctx t).2.results =
      ctx.results ++
        (if v._doc.find t (v._doc.next v._cursor.location) ≠ v._doc.end_ then []
         else if v._doc.find t (v._doc.home 0) = v._doc.end_ then ["Not found"]
         else if v._doc.find t (v._doc.home 0) = v._cursor.location then
           ["This is the only occurrence"]
         else ["Search wrapped"]) := by
  have hE : t.isEmpty = false := by cases t <;> simp_all
  simp only [View.ctl_find_commit, hE, Bool.not_false, if_true]
  by_cases h1 : v._doc.find t (v._doc.next v._cursor.location) = v._doc.end_
  · by_cases h2 : v._doc.find t (v._doc.home 0) = v._doc.end_
    · simp [Frame.show_result, Frame.repaint, h1, h2]
    · by_cases h3 : v._doc.find t (v._doc.home 0) = v._cursor.location
      · have hc : ¬ v._cursor.location = v._doc.end_ := fun h => h2 (h3.trans h)
        simp [Frame.show_result, Frame.repaint, h1, h3, hc]
      · simp [Frame.show_result, Frame.repaint, h1, h2, h3]
  · simp [Frame.repaint, h1]

/-- C1 on the line `abcabc`, searching `abc` from the second occurrence: the
search wraps. -/
theorem ctl_find_commit_classifies_witness :
    "abc".toList ≠ [] ∧
    ((sample_view ["abcabc".toList] ⟨0, 3⟩ 4 0).ctl_find_commit frame0 "abc".toList).2.results
      = ["Search wrapped"] :=
  ⟨by decide,
   (ctl_find_commit_classifies (sample_view ["abcabc".toList] ⟨0, 3⟩ 4 0) frame0
      "abc".toList (by decide)).trans (by decide)⟩

/-- C5: when the search text (the committed value, or the previous search text
when the value is empty) is found neither from `next(c)` nor from `home()`,
both searches returning the end sentinel, the Find commit leaves the cursor
location at `c`. -/
theorem ctl_find_commit_miss_keeps_cursor (v : View) (ctx : Frame) (value : List Char)
    (h1 : v._doc.find (if value.isEmpty then v._find_text else value)
            (v._doc.next v._cursor.location) = v._doc.end_)
    (h2 : v._doc.find (if value.isEmpty then v._find_text else value)
            (v._doc.home 0) = v._doc.end_) :
    (v.ctl_find_commit ctx value).1._cursor.location = v._cursor.location := by
  cases hE : value.isEmpty
  · simp only [hE, Bool.false_eq_true, if_false] at h1 h2
    simp [View.ctl_find_commit, hE, reveal_cursor_cursor, cursor_move_to_location, h1, h2]
  · simp only [hE, if_true] at h1 h2
    simp [View.ctl_find_commit, hE, reveal_cursor_cursor, cursor_move_to_location, h1, h2]

/-- C5 on the line `abcxyz`, searching `q` from (0, 2): the cursor stays at
(0, 2), which is not the end sentinel (0, 6). -/
theorem ctl_find_commit_miss_keeps_cursor_witness :
    (sample_view ["abcxyz".toList] ⟨0, 2⟩ 4 0)._doc.end_ = ⟨0, 6⟩ ∧
    ((sample_view ["abcxyz".toList] ⟨0, 2⟩ 4 0).ctl_find_commit frame0
        "q".toList).1._cursor.location = ⟨0, 2⟩ :=
  ⟨by decide,
   ctl_find_commit_miss_keeps_cursor (sample_view ["abcxyz".toList] ⟨0, 2⟩ 4 0) frame0
     "q".toList (by decide) (by decide)⟩

/-! ## Go to line -/

theorem drop_selection_cursor (v : View) : v.drop_selection._cursor = v._cursor := rfl

theorem postprocess_cursor (v : View) (ctx : Frame) :
    (v.postprocess ctx).1._cursor = v._cursor := by
  simp only [View.postprocess]
  split <;> exact reveal_cursor_cursor v

/-- C2, as stated, fails: the input `9223372036854775808` is a decimal integer
(2 ^ 63), yet the Go-to-line commit does fail on it: `std::stol` throws
`out_of_range`, nothing catches it, and the cursor stays on its line instead
of moving to the last line. -/
theorem ctl_toline_commit_out_of_range :
    (∀ c ∈ "9223372036854775808".toList, isdigit c = true) ∧
    numeral_value false "9223372036854775808".toList = 2 ^ 63 ∧
    ((sample_view [[], [], []] ⟨1, 0⟩ 4 0).ctl_toline_commit frame0
        (numeral false "9223372036854775808".toList)).thrown
      = some Exception.out_of_range ∧
    ((sample_view [[], [], []] ⟨1, 0⟩ 4 0).ctl_toline_commit frame0
        (numeral false "9223372036854775808".toList)).view._cursor.location
      = ⟨1, 0⟩ := by
  refine ⟨by decide, by decide, by decide, by decide⟩

/-- C2, amended: for every input that is a decimal integer `n` (digits, after an
optional minus sign): when `LONG_MIN < n ≤ LONG_MAX`, the Go-to-line commit
throws nothing and moves the cursor to line `clamp(n - 1, 0, maxline)`,
offset 0; when `n` does not fit a `long`, `std::stol` throws `out_of_range`,
the exception leaves the commit, and the view (the cursor with it) and the
frame stay as they were. -/
theorem ctl_toline_commit_clamps (v : View) (ctx : Frame) (neg : Bool) (ds : List Char)
    (hne : ds ≠ []) (hd : ∀ c ∈ ds, isdigit c = true) :
    (LONG_MIN < numeral_value neg ds → numeral_value neg ds ≤ LONG_MAX →
      (v.ctl_toline_commit ctx (numeral neg ds)).thrown = none ∧
      (v.ctl_toline_commit ctx (numeral neg ds)).view._cursor.location
        = ⟨min (max (numeral_value neg ds - 1) 0).toNat v._doc.maxline, 0⟩) ∧
    (numeral_value neg ds < LONG_MIN ∨ LONG_MAX < numeral_value neg ds →
      (v.ctl_toline_commit ctx (numeral neg ds)).thrown = some Exception.out_of_range ∧
      (v.ctl_toline_commit ctx (numeral neg ds)).view = v ∧
      (v.ctl_toline_commit ctx (numeral neg ds)).ctx = ctx) := by
  have hE : (numeral neg ds).isEmpty = false := by
    obtain ⟨c, cs, rfl⟩ := List.exists_cons_of_ne_nil hne
    cases neg <;> simp [numeral]
  refine ⟨fun hlo hhi => ?_, fun hout => ?_⟩
  · have hstol := stol_numeral neg ds hne hd (le_of_lt hlo) hhi
    have hwrap : long_wrap (numeral_value neg ds - 1) = numeral_value neg ds - 1 := by
      simp only [LONG_MIN, LONG_MAX] at hlo hhi
      unfold long_wrap
      omega
    simp only [View.ctl_toline_commit, hE, Bool.false_eq_true, if_false, hstol, hwrap,
      postprocess_cursor, drop_selection_cursor, cursor_move_to_location,
      Document.home, true_and]
    by_cases hpos : numeral_value neg ds - 1 ≥ 0
    · simp only [if_pos hpos, max_eq_left hpos]
    · simp only [if_neg hpos]
      have : max (numeral_value neg ds - 1) 0 = 0 := max_eq_right (by omega)
      simp [this]
  · have hstol := stol_numeral_out_of_range neg ds hne hd hout
    simp [View.ctl_toline_commit, hE, hstol]

/-- C2, amended, on a three-line document with the cursor on line 1: the input
`-5` moves the cursor to the first line, the input `9223372036854775808`
(2 ^ 63) throws `out_of_range`. -/
theorem ctl_toline_commit_clamps_witness :
    (['5'] ≠ [] ∧ (∀ c ∈ ['5'], isdigit c = true) ∧
      LONG_MIN < numeral_value true ['5'] ∧ numeral_value true ['5'] ≤ LONG_MAX) ∧
    numeral true ['5'] = ['-', '5'] ∧
    (((sample_view [[], [], []] ⟨1, 0⟩ 4 0).ctl_toline_commit frame0
        (numeral true ['5'])).thrown = none ∧
     ((sample_view [[], [], []] ⟨1, 0⟩ 4 0).ctl_toline_commit frame0
        (numeral true ['5'])).view._cursor.location = ⟨0, 0⟩) ∧
    ((sample_view [[], [], []] ⟨1, 0⟩ 4 0).ctl_toline_commit frame0
        (numeral false "9223372036854775808".toList)).thrown
      = some Exception.out_of_range :=
  ⟨⟨by decide, by decide, by decide, by decide⟩, by decide,
   (ctl_toline_commit_clamps (sample_view [[], [], []] ⟨1, 0⟩ 4 0) frame0 true ['5']
     (by decide) (by decide)).1 (by decide) (by decide),
   ((ctl_toline_commit_clamps (sample_view [[], [], []] ⟨1, 0⟩ 4 0) frame0 false
     "9223372036854775808".toList (by decide) (by decide)).2 (Or.inr (by decide))).1⟩

/-- C6: for every non-empty Go-to-line input that does not begin with a number
(no digit after optional leading white space and an optional sign), the
numeric parse throws `invalid_argument`, the exception leaves the commit
callback, and the view (cursor location and selection included) and the frame
are as they were. -/
theorem ctl_toline_commit_not_a_number (v : View) (ctx : Frame) (value : List Char)
    (hne : value ≠ []) (hnum : begins_with_number value = false) :
    (v.ctl_toline_commit ctx value).thrown = some Exception.invalid_argument ∧
    (v.ctl_toline_commit ctx value).view._cursor.location = v._cursor.location ∧
    (v.ctl_toline_commit ctx value).view._selection = v._selection ∧
    (v.ctl_toline_commit ctx value).view = v ∧
    (v.ctl_toline_commit ctx value).ctx = ctx := by
  have hE : value.isEmpty = false := by cases value <;> simp_all
  simp [View.ctl_toline_commit, hE, stol_no_number value hnum]

/-- C6 at the input `x12` on a three-line document. -/
theorem ctl_toline_commit_not_a_number_witness :
    ['x', '1', '2'] ≠ [] ∧ begins_with_number ['x', '1', '2'] = false ∧
    ((sample_view [[], [], []] ⟨1, 0⟩ 4 0).ctl_toline_commit frame0
        ['x', '1', '2']).thrown = some Exception.invalid_argument :=
  ⟨by decide, by decide,
   (ctl_toline_commit_not_a_number (sample_view [[], [], []] ⟨1, 0⟩ 4 0) frame0
      ['x', '1', '2'] (by decide) (by decide)).1⟩

/-! ## The viewport -/

theorem size_sub_of_le {a b : Nat} (hab : b ≤ a) (ha : a < SIZE_MOD) : size_sub a b = a - b := by
  unfold size_sub
  unfold SIZE_MOD at *
  omega

theorem size_add_le (a b : Nat) : size_add a b ≤ a + b := by
  unfold size_add
  exact Nat.mod_le _ _

/-- C10: in a view whose `size_t` fields hold `_height ≥ 1`,
`_halfheight = _height / 2` and
`_maxscroll = max(maxline, _height) - _halfheight`, with the cursor on a line
of the document, `reveal_cursor` leaves the cursor line visible:
`line_is_visible` holds for it, that is `_scrollpos ≤ line` and
`line - _scrollpos < _height`; no subtraction on the way wraps around, neither
the one that defines `_maxscroll` nor those `reveal_cursor` evaluates. -/
theorem reveal_cursor_line_is_visible (v : View)
    (hheight : 1 ≤ v._height) (hfit : v._height < SIZE_MOD)
    (hdoc : v._doc.maxline < SIZE_MOD)
    (hline : v._cursor.location.line ≤ v._doc.maxline)
    (hhalf : v._halfheight = v._height / 2)
    (hmax : v._maxscroll = size_sub (max v._doc.maxline v._height) v._halfheight) :
    v.reveal_cursor.line_is_visible v.reveal_cursor._cursor.location.line = true ∧
    v.reveal_cursor._scrollpos ≤ v.reveal_cursor._cursor.location.line ∧
    v.reveal_cursor._cursor.location.line - v.reveal_cursor._scrollpos
      < v.reveal_cursor._height ∧
    v._halfheight ≤ max v._doc.maxline v._height ∧
    (∀ p ∈ v.reveal_cursor_subtractions, p.2 ≤ p.1) := by
  have hmaxlt : max v._doc.maxline v._height < SIZE_MOD := max_lt hdoc hfit
  have hhle : v._halfheight ≤ max v._doc.maxline v._height := by
    have : v._height ≤ max v._doc.maxline v._height := le_max_right _ _
    omega
  have hmax2 : v._maxscroll = max v._doc.maxline v._height - v._halfheight := by
    rw [hmax, size_sub_of_le hhle hmaxlt]
  have hlinelt : v._cursor.location.line < SIZE_MOD := lt_of_le_of_lt hline hdoc
  have hsubs : ∀ p ∈ v.reveal_cursor_subtractions, p.2 ≤ p.1 := by
    intro p hp
    simp only [View.reveal_cursor_subtractions, List.mem_append] at hp
    rcases hp with hp | hp
    · split at hp
      · simp only [List.mem_singleton] at hp
        subst hp
        assumption
      · simp at hp
    · split at hp
      · simp at hp
      · split at hp
        · simp only [List.mem_singleton] at hp
          subst hp
          simp only
          omega
        · simp at hp
  have key : v.reveal_cursor._scrollpos ≤ v._cursor.location.line ∧
      v._cursor.location.line - v.reveal_cursor._scrollpos < v.reveal_cursor._height := by
    by_cases hvis : v.line_is_visible v._cursor.location.line = true
    · have hsame : v.reveal_cursor = v := by simp [View.reveal_cursor, hvis]
      rw [hsame]
      simp only [View.line_is_visible, Bool.and_eq_true, decide_eq_true_eq] at hvis
      obtain ⟨h1, h2⟩ := hvis
      rw [size_sub_of_le h1 hlinelt] at h2
      exact ⟨h1, h2⟩
    · have hsp : v.reveal_cursor._scrollpos
          = min (if v._cursor.location.line > v._halfheight
                  then size_sub v._cursor.location.line v._halfheight else 0) v._maxscroll := by
        simp [View.reveal_cursor, hvis]
      have hh : v.reveal_cursor._height = v._height := by
        simp [View.reveal_cursor, hvis]
      rw [hsp, hh]
      by_cases hgt : v._cursor.location.line > v._halfheight
      · rw [if_pos hgt, size_sub_of_le (le_of_lt hgt) hlinelt]
        have hle : v._cursor.location.line - v._halfheight ≤ v._maxscroll := by
          rw [hmax2]
          have : v._doc.maxline ≤ max v._doc.maxline v._height := le_max_left _ _
          omega
        rw [min_eq_left hle]
        omega
      · rw [if_neg hgt]
        simp only [Nat.zero_min, Nat.zero_le, Nat.sub_zero, true_and]
        omega
  rw [reveal_cursor_cursor] 
  refine ⟨?_, key.1, key.2, hhle, hsubs⟩
  simp only [View.line_is_visible, Bool.and_eq_true, decide_eq_true_eq]
  refine ⟨key.1, ?_⟩
  rw [size_sub_of_le key.1 hlinelt]
  exact key.2

/-- C10 on a ten-line document in a four-row viewport scrolled to the top, the
cursor on the last line. -/
theorem reveal_cursor_line_is_visible_witness :
    (sample_view (List.replicate 10 []) ⟨9, 0⟩ 4 0).reveal_cursor._scrollpos ≤ 9 ∧
    9 - (sample_view (List.replicate 10 []) ⟨9, 0⟩ 4 0).reveal_cursor._scrollpos < 4 :=
  ⟨(reveal_cursor_line_is_visible (sample_view (List.replicate 10 []) ⟨9, 0⟩ 4 0)
      (by decide) (by decide) (by decide) (by decide) (by decide) (by decide)).2.1,
   (reveal_cursor_line_is_visible (sample_view (List.replicate 10 []) ⟨9, 0⟩ 4 0)
      (by decide) (by decide) (by decide) (by decide) (by decide) (by decide)).2.2.1⟩

/-- C9, evaluated: a ten-line document (maxline 9) in a four-row viewport with
up-to-date dimensions, scrolled to the top, the cursor on the last line.
`update_dimensions` changes nothing, the document has at least `_height`
lines, and `reveal_cursor` scrolls to 7: the last viewport row is line 10,
past the last line of the document. -/
theorem reveal_cursor_reveals_empty_space :
    (sample_view (List.replicate 10 []) ⟨9, 0⟩ 4 0).update_dimensions ⟨1, 4, 80⟩
      = sample_view (List.replicate 10 []) ⟨9, 0⟩ 4 0 ∧
    (sample_view (List.replicate 10 []) ⟨9, 0⟩ 4 0)._height
      ≤ (sample_view (List.replicate 10 []) ⟨9, 0⟩ 4 0)._doc.lines.length ∧
    (sample_view (List.replicate 10 []) ⟨9, 0⟩ 4 0)._doc.maxline = 9 ∧
    (sample_view (List.replicate 10 []) ⟨9, 0⟩ 4 0).reveal_cursor._scrollpos = 7 ∧
    ¬ ((sample_view (List.replicate 10 []) ⟨9, 0⟩ 4 0).reveal_cursor._scrollpos
        + (sample_view (List.replicate 10 []) ⟨9, 0⟩ 4 0).reveal_cursor._height - 1
      ≤ (sample_view (List.replicate 10 []) ⟨9, 0⟩ 4 0).reveal_cursor._doc.maxline) := by
  refine ⟨by decide, by decide, by decide, by decide, by decide⟩

/-! ## Painting -/

theorem update_dimensions_height (v : View) (dest : WINDOW) :
    (v.update_dimensions dest)._height = dest.height := by
  simp only [View.update_dimensions]
  split_ifs <;> simp_all

/-- C4, as stated, fails: the first paint of a new blank buffer (one line,
maxline 0) into a three-row window passes the indices 0, 1 and 2 to
`Document.line`; 1 and 2 are past maxline. -/
theorem paint_into_reads_past_maxline :
    blank_view._doc.maxline = 0 ∧
    (blank_view.paint_into ⟨1, 3, 80⟩ true).2 = [0, 1, 2] ∧
    ¬ (∀ index ∈ (blank_view.paint_into ⟨1, 3, 80⟩ true).2,
        index ≤ blank_view._doc.maxline) := by
  refine ⟨by decide, by decide, by decide⟩

/-- C4, amended: for every view, every index `paint_into` passes, through
`paint_line`, to `Document.line` is `row + _scrollpos` for a viewport row
`row < _height`, with the height of the window and the scroll position
`update_dimensions` leaves; there is no check against maxline. Such an index
satisfies `index ≤ maxline` when `_scrollpos + _height ≤ maxline + 1`. On a
full repaint (the window or the activation changed, as on the first paint)
every viewport row is read, and then all indices satisfy `index ≤ maxline` if
and only if the viewport is empty or its last row maps to a document line. -/
theorem paint_into_reads_within_viewport (v : View) (dest : WINDOW) (active : Bool) :
    (∀ index ∈ (v.paint_into dest active).2,
        ∃ row, row < dest.height ∧
          index = size_add row (v.update_dimensions dest)._scrollpos) ∧
    ((v.update_dimensions dest)._scrollpos + dest.height ≤ v._doc.maxline + 1 →
        ∀ index ∈ (v.paint_into dest active).2, index ≤ v._doc.maxline) ∧
    ((active ≠ (v.update_dimensions dest)._last_active ∨
        some dest.id ≠ (v.update_dimensions dest)._last_dest) →
      (v.paint_into dest active).2
        = (List.range dest.height).map
            (fun row => size_add row (v.update_dimensions dest)._scrollpos)) ∧
    ((active ≠ (v.update_dimensions dest)._last_active ∨
        some dest.id ≠ (v.update_dimensions dest)._last_dest) →
      (v.update_dimensions dest)._scrollpos + dest.height ≤ SIZE_MOD →
      ((∀ index ∈ (v.paint_into dest active).2, index ≤ v._doc.maxline) ↔
        (dest.height = 0 ∨
          (v.update_dimensions dest)._scrollpos + dest.height ≤ v._doc.maxline + 1))) := by
  have hrows : ∀ index ∈ (v.paint_into dest active).2,
      ∃ row, row < dest.height ∧
        index = size_add row (v.update_dimensions dest)._scrollpos := by
    intro index hmem
    rw [← update_dimensions_height v dest]
    simp only [View.paint_into] at hmem
    generalize v.update_dimensions dest = w at hmem ⊢
    have hread : ∀ u : View, u._height = w._height → u._scrollpos = w._scrollpos →
        index ∈ (List.range u._height).filterMap (fun i => u.paint_line i active) →
        ∃ row, row < w._height ∧ index = size_add row w._scrollpos := by
      intro u hh hs hu
      simp only [List.mem_filterMap, List.mem_range, View.paint_line] at hu
      obtain ⟨row, hrow, hsome⟩ := hu
      refine ⟨row, hh ▸ hrow, ?_⟩
      split at hsome
      · cases hsome
      · rw [← hs]
        exact (Option.some.inj hsome).symm
    by_cases hc : active ≠ w._last_active ∨ some dest.id ≠ w._last_dest
    · rw [if_pos hc] at hmem
      exact hread { w with _update := w._update.all, _last_active := active,
                           _last_dest := some dest.id } rfl rfl hmem
    · rw [if_neg hc] at hmem
      exact hread w rfl rfl hmem
  have hbound : (v.update_dimensions dest)._scrollpos + dest.height ≤ v._doc.maxline + 1 →
      ∀ index ∈ (v.paint_into dest active).2, index ≤ v._doc.maxline := by
    intro hfit index hmem
    obtain ⟨row, hrow, rfl⟩ := hrows index hmem
    have := size_add_le row (v.update_dimensions dest)._scrollpos
    omega
  have hall : (active ≠ (v.update_dimensions dest)._last_active ∨
        some dest.id ≠ (v.update_dimensions dest)._last_dest) →
      (v.paint_into dest active).2
        = (List.range dest.height).map
            (fun row => size_add row (v.update_dimensions dest)._scrollpos) := by
    intro hc
    rw [← update_dimensions_height v dest]
    simp only [View.paint_into, if_pos hc, View.paint_line, Update.all, Update.is_dirty,
      Bool.not_true, Bool.false_eq_true, if_false]
    exact congrFun (List.filterMap_eq_map
      (fun row => size_add row (v.update_dimensions dest)._scrollpos)) _
  refine ⟨hrows, hbound, hall, ?_⟩
  intro hc hwrap
  refine ⟨fun hle => ?_, fun hfit => ?_⟩
  · by_cases h0 : dest.height = 0
    · exact Or.inl h0
    · right
      have hmem : size_add (dest.height - 1) (v.update_dimensions dest)._scrollpos
          ∈ (v.paint_into dest active).2 := by
        rw [hall hc]
        exact List.mem_map.mpr ⟨dest.height - 1, List.mem_range.mpr (by omega), rfl⟩
      have := hle _ hmem
      have hexact : size_add (dest.height - 1) (v.update_dimensions dest)._scrollpos
          = dest.height - 1 + (v.update_dimensions dest)._scrollpos := by
        unfold size_add
        exact Nat.mod_eq_of_lt (by omega)
      omega
  · rcases hfit with h0 | hfit
    · intro index hmem
      obtain ⟨row, hrow, -⟩ := hrows index hmem
      omega
    · exact hbound hfit

/-- C4, amended, on a ten-line document painted into a fresh four-row window:
the viewport fits, the rows read are the lines 0 to 3, all within the
document; on the one-line blank buffer painted into a three-row window, the
indices are not all within the document. -/
theorem paint_into_reads_within_viewport_witness :
    ((sample_view (List.replicate 10 []) ⟨0, 0⟩ 4 0).update_dimensions ⟨2, 4, 80⟩)._scrollpos + 4
      ≤ (sample_view (List.replicate 10 []) ⟨0, 0⟩ 4 0)._doc.maxline + 1 ∧
    ((sample_view (List.replicate 10 []) ⟨0, 0⟩ 4 0).paint_into ⟨2, 4, 80⟩ true).2
      = [0, 1, 2, 3] ∧
    (∀ index ∈ ((sample_view (List.replicate 10 []) ⟨0, 0⟩ 4 0).paint_into ⟨2, 4, 80⟩ true).2,
        index ≤ (sample_view (List.replicate 10 []) ⟨0, 0⟩ 4 0)._doc.maxline) ∧
    ¬ (∀ index ∈ (blank_view.paint_into ⟨1, 3, 80⟩ true).2,
        index ≤ blank_view._doc.maxline) :=
  ⟨by decide, by decide,
   (paint_into_reads_within_viewport (sample_view (List.replicate 10 []) ⟨0, 0⟩ 4 0)
      ⟨2, 4, 80⟩ true).2.1 (by decide),
   fun hle =>
     absurd (((paint_into_reads_within_viewport blank_view ⟨1, 3, 80⟩ true).2.2.2
       (by decide) (by decide)).mp hle) (by decide)⟩

/-! ## Selection, dirty lines and closing -/

/-- C3, evaluated: Return on the line `ab` with the cursor at (0, 1) and nothing
selected moves the cursor to (1, 0) and leaves the selection collapsed at
(0, 1); a Find commit for `abc` on the line `abcabc` from (0, 0) moves the
cursor to (0, 3) and leaves the selection at (0, 0). Neither path calls
`drop_selection`, which does collapse the selection at the cursor. -/
theorem selection_left_behind :
    ((sample_view [['a', 'b']] ⟨0, 1⟩ 4 0).key_return._cursor.location = ⟨1, 0⟩ ∧
     (sample_view [['a', 'b']] ⟨0, 1⟩ 4 0).key_return._selection = ⟨⟨0, 1⟩, ⟨0, 1⟩⟩) ∧
    (((sample_view ["abcabc".toList] ⟨0, 0⟩ 4 0).ctl_find_commit frame0
        "abc".toList).1._cursor.location = ⟨0, 3⟩ ∧
     ((sample_view ["abcabc".toList] ⟨0, 0⟩ 4 0).ctl_find_commit frame0
        "abc".toList).1._selection = ⟨⟨0, 0⟩, ⟨0, 0⟩⟩) ∧
    (∀ v : View, v.drop_selection._selection.begin = v.drop_selection._cursor.location ∧
       v.drop_selection._selection.end_ = v.drop_selection._cursor.location) := by
  refine ⟨⟨by decide, by decide⟩, ⟨by decide, by decide⟩, fun v => ⟨rfl, rfl⟩⟩

/-- C8, evaluated: `ctl_close` on an unmodified document requests `close_file`
for the target path and then shows the save-confirmation dialog all the
same. -/
theorem ctl_close_unmodified_shows_dialog :
    (sample_view [[]] ⟨0, 0⟩ 4 0)._doc.modified = false ∧
    ((sample_view [[]] ⟨0, 0⟩ 4 0).ctl_close frame0).closed = ["notes.txt"] ∧
    ((sample_view [[]] ⟨0, 0⟩ 4 0).ctl_close frame0).dialogs
      = [Dialog.Confirmation "You have modified this file. Save changes before closing?"] := by
  refine ⟨rfl, rfl, rfl⟩

end Editor
